import Mathlib

/-!
Verification development for the `spanner` event-capture library.

The Rust sources are embedded shallowly:

* machine integers (`u64`, `u32`, `usize`) become `Nat`;
* `SystemTime`, `DateTime<Utc>` and `Duration` become `Nat` (an abstract
  tick count); the current wall-clock time is passed as an explicit
  argument wherever the Rust calls `now()`;
* `HashMap<String, String>` becomes an association list
  `List (String × String)` (iteration order is irrelevant to every claim);
* `VecDeque<Event>` becomes a `List Event` whose head is the *front*
  (newest element) of the deque;
* `Arc<T>` is the plain value `T`; `Option<T>` is `Option T`;
* fallible global accessors returning `Option<...>` return `Option _`;
* the `tokio` unbounded channel feeding the stream view is modelled as the
  list of values sent on it, and handler invocation is modelled as an
  append-only delivery log (subscription id, value).
-/

namespace Spanner

/-- `tracing::Level`: ordered log level (span.rs / event filtering). -/
inductive Level where
  | ERROR
  | WARN
  | INFO
  | DEBUG
  | TRACE
deriving DecidableEq, Repr

/-- `Display` for `tracing::Level` (uppercase names), as used by
`SerializableLevel::from(Level)` and `create_export_data`. -/
def Level.display : Level → String
  | .ERROR => "ERROR"
  | .WARN => "WARN"
  | .INFO => "INFO"
  | .DEBUG => "DEBUG"
  | .TRACE => "TRACE"

/-- span.rs: `pub struct SerializableLevel(pub String)`. -/
structure SerializableLevel where
  s : String
deriving DecidableEq, Repr

/-- span.rs: `impl From<Level> for SerializableLevel` — stores the
`Display` rendering of the level. -/
def SerializableLevel.ofLevel (l : Level) : SerializableLevel :=
  ⟨l.display⟩

/-- span.rs lines 28-39: `impl From<SerializableLevel> for Level` — match
on the stored string with fallback `Level::INFO`. -/
def SerializableLevel.toLevel (sl : SerializableLevel) : Level :=
  if sl.s = "ERROR" then .ERROR
  else if sl.s = "WARN" then .WARN
  else if sl.s = "INFO" then .INFO
  else if sl.s = "DEBUG" then .DEBUG
  else if sl.s = "TRACE" then .TRACE
  else .INFO

/-- span.rs lines 17-22: `impl PartialEq<Level> for SerializableLevel` —
convert `self` to a `Level` and compare. -/
def SerializableLevel.eqLevel (sl : SerializableLevel) (l : Level) : Bool :=
  decide (sl.toLevel = l)

/-- Insertion into a `HashMap<String, String>` modelled on an association
list: replaces any existing binding of the key. -/
def mapInsert (m : List (String × String)) (k v : String) : List (String × String) :=
  m.filter (fun p => p.1 != k) ++ [(k, v)]

/-- Rust `str::contains`: substring containment. -/
def strContains (hay pat : String) : Bool :=
  decide (pat.toList <:+: hay.toList)

/-- span.rs: `SpanInfo`. `children : Vec<SpanInfo>` makes this a nested
inductive; field accessors are defined below. Times are abstract ticks. -/
inductive SpanInfo where
  | mk
    (id : Nat)
    (name : String)
    (target : String)
    (level : SerializableLevel)
    (file : Option String)
    (line : Option Nat)
    (module_path : Option String)
    (fields : List (String × String))
    (entered_at : Nat)
    (exited_at : Option Nat)
    (duration : Option Nat)
    (children : List SpanInfo) : SpanInfo

def SpanInfo.id : SpanInfo → Nat
  | .mk i _ _ _ _ _ _ _ _ _ _ _ => i

def SpanInfo.name : SpanInfo → String
  | .mk _ n _ _ _ _ _ _ _ _ _ _ => n

def SpanInfo.target : SpanInfo → String
  | .mk _ _ t _ _ _ _ _ _ _ _ _ => t

def SpanInfo.level : SpanInfo → SerializableLevel
  | .mk _ _ _ l _ _ _ _ _ _ _ _ => l

def SpanInfo.file : SpanInfo → Option String
  | .mk _ _ _ _ f _ _ _ _ _ _ _ => f

def SpanInfo.line : SpanInfo → Option Nat
  | .mk _ _ _ _ _ ln _ _ _ _ _ _ => ln

def SpanInfo.module_path : SpanInfo → Option String
  | .mk _ _ _ _ _ _ mp _ _ _ _ _ => mp

def SpanInfo.fields : SpanInfo → List (String × String)
  | .mk _ _ _ _ _ _ _ fs _ _ _ _ => fs

def SpanInfo.entered_at : SpanInfo → Nat
  | .mk _ _ _ _ _ _ _ _ en _ _ _ => en

def SpanInfo.exited_at : SpanInfo → Option Nat
  | .mk _ _ _ _ _ _ _ _ _ ex _ _ => ex

def SpanInfo.duration : SpanInfo → Option Nat
  | .mk _ _ _ _ _ _ _ _ _ _ d _ => d

def SpanInfo.children : SpanInfo → List SpanInfo
  | .mk _ _ _ _ _ _ _ _ _ _ _ ch => ch

/-- span.rs lines 57-73: `SpanInfo::new` — `entered_at` is the caller's
`SystemTime::now()`, passed explicitly here. -/
def SpanInfo.new (id : Nat) (name target : String) (level : Level) (now : Nat) : SpanInfo :=
  .mk id name target (SerializableLevel.ofLevel level) none none none [] now none none []

/-- span.rs line 77: `add_field` inserts into the `fields` map. -/
def SpanInfo.add_field : SpanInfo → String → String → SpanInfo
  | .mk i n t l f ln mp fs en ex d ch, k, v => .mk i n t l f ln mp (mapInsert fs k v) en ex d ch

/-- span.rs line 79: `add_child` appends to `children`. -/
def SpanInfo.add_child : SpanInfo → SpanInfo → SpanInfo
  | .mk i n t l f ln mp fs en ex d ch, c => .mk i n t l f ln mp fs en ex d (ch ++ [c])

/-- span.rs lines 81-87: `exit` stores `now` into `exited_at`
unconditionally, and stores `now - entered_at` into `duration` only when
`now.duration_since(entered_at)` succeeds, i.e. when
`entered_at ≤ now`; on a clock that went backwards `duration` is left
unchanged. -/
def SpanInfo.exit : SpanInfo → Nat → SpanInfo
  | .mk i n t l f ln mp fs en _ d ch, now =>
      .mk i n t l f ln mp fs en (some now) (if en ≤ now then some (now - en) else d) ch

/-- span.rs line 89: `is_active` — no `exited_at` yet. -/
def SpanInfo.is_active (s : SpanInfo) : Bool :=
  s.exited_at.isNone

/-- The duration/exit coherence predicate claimed by the spec: `duration`
is present iff `exited_at` is present, and then equals
`exited_at - entered_at`. -/
def duration_invariant (s : SpanInfo) : Bool :=
  match s.exited_at, s.duration with
  | none, none => true
  | some ex, some d => d == ex - s.entered_at
  | _, _ => false

/-- event_data.rs: `EventData`. `timestamp` is an abstract tick. -/
structure EventData where
  message : String
  level : SerializableLevel
  target : String
  file : Option String
  line : Option Nat
  module_path : Option String
  fields : List (String × String)
  timestamp : Nat
deriving DecidableEq, Repr

/-- event_data.rs lines 21-32: `EventData::new` — timestamp is the
caller's `Utc::now()`, passed explicitly. -/
def EventData.new (message : String) (level : Level) (target : String) (now : Nat) : EventData :=
  { message := message
    level := SerializableLevel.ofLevel level
    target := target
    file := none
    line := none
    module_path := none
    fields := []
    timestamp := now }

/-- event_data.rs line 34: the `level()` method — converts the stored
`SerializableLevel` back to a `Level`. -/
def EventData.levelValue (d : EventData) : Level :=
  d.level.toLevel

/-- event.rs lines 12-24: `Event`. The `parent : Option<Arc<Event>>` field
makes this a nested inductive; it is marked `#[serde(skip)]` in the
source, which matters for the snapshot codec below. -/
inductive Event where
  | mk
    (parent : Option Event)
    (event_data : EventData)
    (span_stack : List SpanInfo)
    (current_span : Option SpanInfo)
    (thread_id : Option String)
    (thread_name : Option String)
    (process_id : Option Nat)
    (correlation_id : Option String)
    (custom_metadata : List (String × String)) : Event

def Event.parent : Event → Option Event
  | .mk p _ _ _ _ _ _ _ _ => p

def Event.event_data : Event → EventData
  | .mk _ d _ _ _ _ _ _ _ => d

def Event.span_stack : Event → List SpanInfo
  | .mk _ _ ss _ _ _ _ _ _ => ss

def Event.current_span : Event → Option SpanInfo
  | .mk _ _ _ cs _ _ _ _ _ => cs

def Event.thread_id : Event → Option String
  | .mk _ _ _ _ ti _ _ _ _ => ti

def Event.thread_name : Event → Option String
  | .mk _ _ _ _ _ tn _ _ _ => tn

def Event.process_id : Event → Option Nat
  | .mk _ _ _ _ _ _ pid _ _ => pid

def Event.correlation_id : Event → Option String
  | .mk _ _ _ _ _ _ _ ci _ => ci

def Event.custom_metadata : Event → List (String × String)
  | .mk _ _ _ _ _ _ _ _ cm => cm

/-- event.rs lines 27-39: `Event::new`. -/
def Event.new (event_data : EventData) : Event :=
  .mk none event_data [] none none none none none []

/-- event.rs lines 41-44: `with_parent`. -/
def Event.with_parent : Event → Event → Event
  | .mk _ d ss cs ti tn pid ci cm, p => .mk (some p) d ss cs ti tn pid ci cm

/-- event.rs lines 184-218: `matches_criteria` — conjunction of the
supplied filters; an absent filter is vacuously true. -/
def Event.matches_criteria (e : Event) (level_filter : Option Level)
    (target_filter message_contains span_name_contains : Option String) : Bool :=
  (match level_filter with
   | some l => decide (e.event_data.levelValue = l)
   | none => true) &&
  (match target_filter with
   | some t => strContains e.event_data.target t
   | none => true) &&
  (match message_contains with
   | some msg => strContains e.event_data.message msg
   | none => true) &&
  (match span_name_contains with
   | some sn => (e.span_stack ++ e.current_span.toList).any (fun sp => strContains sp.name sn)
   | none => true)

/-- events.rs: the observable state of an `EventTarget<T>`.
`listeners` holds the registered subscription ids (`HashMap<Uuid, _>`
keys; ids are abstracted to `Nat`); `delivered` is the append-only log of
handler invocations `(subscription id, value)` in invocation order;
`stream` is the sequence of values sent on the unbounded channel feeding
the stream view. -/
structure EventTarget (T : Type) where
  listeners : List Nat
  delivered : List (Nat × T)
  stream : List T

/-- events.rs lines 32-39: `EventTarget::new` — empty listener map, empty
channel. -/
def EventTarget.new (T : Type) : EventTarget T :=
  ⟨[], [], []⟩

/-- events.rs lines 41-52: `emit` — every currently registered listener's
handler is invoked once with the value, then the value is sent on the
stream channel. The listener set itself is unchanged. -/
def EventTarget.emit (s : EventTarget T) (v : T) : EventTarget T :=
  { s with
    delivered := s.delivered ++ s.listeners.map (fun i => (i, v))
    stream := s.stream ++ [v] }

/-- events.rs lines 54-60: `on` — inserts the fresh subscription id into
the listener map (`HashMap::insert`; re-inserting an existing id leaves
the key set unchanged). -/
def EventTarget.on (s : EventTarget T) (id : Nat) : EventTarget T :=
  { s with listeners := if id ∈ s.listeners then s.listeners else s.listeners ++ [id] }

/-- events.rs lines 62-66: `off` — removes the subscription id from the
listener map. -/
def EventTarget.off (s : EventTarget T) (id : Nat) : EventTarget T :=
  { s with listeners := s.listeners.filter (fun j => j != id) }

/-- The values delivered to subscription `id`, in invocation order. -/
def deliveredTo (id : Nat) (s : EventTarget T) : List T :=
  s.delivered.filterMap (fun p => if p.1 = id then some p.2 else none)

/-- A sequence of `emit` calls, in order. -/
def emitList (s : EventTarget T) (vs : List T) : EventTarget T :=
  vs.foldl EventTarget.emit s

/-- The lock-relevant actions performed by `EventTarget::emit`
(events.rs lines 41-52), in program order. -/
inductive ETAction where
  | lockRead : ETAction
  | unlockRead : ETAction
  | invoke : Nat → ETAction
  | sendStream : ETAction
deriving DecidableEq, Repr

/-- Direct transcription of the body of `EventTarget::emit`
(events.rs lines 41-52) as an action trace: `self.listeners.read()`
acquires the read lock, `listeners.values().for_each(|s| s.update(v))`
invokes every handler *while the guard is alive*, the guard drops at the
end of the `if let` block, and only then `self.sender.send(v)` runs. -/
def emitTrace (ls : List Nat) : List ETAction :=
  ETAction.lockRead :: (ls.map ETAction.invoke ++ [ETAction.unlockRead, ETAction.sendStream])

/-- Counts, scanning a trace with `d` read locks currently held, the
handler invocations that occur while at least one lock is held. -/
def invokesUnderLock : Nat → List ETAction → Nat
  | _, [] => 0
  | d, ETAction.lockRead :: tr => invokesUnderLock (d + 1) tr
  | d, ETAction.unlockRead :: tr => invokesUnderLock (d - 1) tr
  | d, ETAction.invoke _ :: tr => (if 0 < d then 1 else 0) + invokesUnderLock d tr
  | d, ETAction.sendStream :: tr => invokesUnderLock d tr

/-- Total number of handler invocations in a trace. -/
def invokesTotal : List ETAction → Nat
  | [] => 0
  | ETAction.invoke _ :: tr => 1 + invokesTotal tr
  | _ :: tr => invokesTotal tr

/-- manager.rs lines 18-23: `EventManager`. `inner` is the `VecDeque`
with its front at the list head (newest first). `#[derive(Default)]`
gives the empty deque, a fresh target, and `max_events = 0`. -/
structure EventManager where
  inner : List Event
  target : EventTarget Event
  max_events : Nat

/-- manager.rs lines 31-34: `EventManager::new` — default cap 12000. -/
def EventManager.new (max_events : Option Nat) : EventManager :=
  { inner := [], target := EventTarget.new Event, max_events := max_events.getD 12000 }

/-- manager.rs `#[derive(Default)]`: `usize`'s default is `0`, so a
defaulted manager has capacity zero. -/
def EventManager.default : EventManager :=
  { inner := [], target := EventTarget.new Event, max_events := 0 }

/-- manager.rs lines 36-41: `push` — `push_front`, then if the length
exceeds `max_events` drop exactly one element from the back. -/
def EventManager.push (m : EventManager) (e : Event) : EventManager :=
  if (e :: m.inner).length > m.max_events then { m with inner := (e :: m.inner).dropLast }
  else { m with inner := e :: m.inner }

/-- A sequence of `push` calls, in order. -/
def pushAll (m : EventManager) (es : List Event) : EventManager :=
  es.foldl EventManager.push m

/-- manager.rs line 43. -/
def EventManager.len (m : EventManager) : Nat :=
  m.inner.length

/-- manager.rs line 45. -/
def EventManager.is_empty (m : EventManager) : Bool :=
  m.inner.isEmpty

/-- manager.rs lines 48-50: `get_by_level` — exact level match via
`PartialEq<Level> for SerializableLevel`. -/
def EventManager.get_by_level (m : EventManager) (level : Level) : List Event :=
  m.inner.filter (fun e => e.event_data.level.eqLevel level)

/-- manager.rs lines 53-55. -/
def EventManager.get_by_target (m : EventManager) (target : String) : List Event :=
  m.inner.filter (fun e => strContains e.event_data.target target)

/-- manager.rs lines 58-65. -/
def EventManager.get_by_span (m : EventManager) (span_name : String) : List Event :=
  m.inner.filter (fun e =>
    (e.span_stack ++ e.current_span.toList).any (fun sp => strContains sp.name span_name))

/-- manager.rs lines 68-70. -/
def EventManager.get_by_thread (m : EventManager) (thread_id : String) : List Event :=
  m.inner.filter (fun e =>
    match e.thread_id with
    | some tid => tid == thread_id
    | none => false)

/-- manager.rs lines 73-75. -/
def EventManager.get_by_correlation_id (m : EventManager) (correlation_id : String) : List Event :=
  m.inner.filter (fun e =>
    match e.correlation_id with
    | some cid => cid == correlation_id
    | none => false)

/-- manager.rs lines 78-89: `search` — filter by `matches_criteria`. -/
def EventManager.search (m : EventManager) (level_filter : Option Level)
    (target_filter message_contains span_name_contains : Option String) : List Event :=
  m.inner.filter (fun e =>
    e.matches_criteria level_filter target_filter message_contains span_name_contains)

/-- manager.rs line 92. -/
def EventManager.get_recent (m : EventManager) (count : Nat) : List Event :=
  m.inner.take count

/-- The global registry slot (`OnceLock<Arc<RwLock<EventManager>>>`):
`none` when `init_global_event_manager` has not run. Lock poisoning is
outside the model (no panics occur in the embedded code). -/
abbrev Global := Option EventManager

/-- manager.rs line 96: `init_global_event_manager` — `OnceLock::set`,
first writer wins, later calls are ignored. -/
def init_global_event_manager (g : Global) : Global :=
  match g with
  | none => some (EventManager.new none)
  | some m => some m

/-- manager.rs lines 99-101: `init_global_event_manager_with_count`. -/
def init_global_event_manager_with_count (g : Global) (max_events : Nat) : Global :=
  match g with
  | none => some (EventManager.new (some max_events))
  | some m => some m

/-- manager.rs line 104: `get_global_events` — `None` when the registry is
uninitialized, otherwise a copy of the buffer. -/
def get_global_events (g : Global) : Option (List Event) :=
  match g with
  | none => none
  | some m => some m.inner

/-- manager.rs lines 107-109: `get_global_event_count` — note the
`unwrap_or(0)`: the uninitialized case yields the plain number `0`. -/
def get_global_event_count (g : Global) : Nat :=
  match g with
  | none => 0
  | some m => m.inner.length

/-- manager.rs lines 111-114: the crate-internal `emit`. It takes the
*read* lock on the manager and calls `.emit(event)`, which resolves
through `Deref` to `EventTarget::emit` on the manager's `target`; the
`inner` buffer is not touched. Returns `None` when uninitialized. -/
def global_emit (g : Global) (e : Event) : Global × Option Unit :=
  match g with
  | none => (none, none)
  | some m => (some { m with target := m.target.emit e }, some ())

/-- manager.rs line 117: `events` — a clone of the manager's target, or
`None` when uninitialized. -/
def global_events_target (g : Global) : Option (EventTarget Event) :=
  match g with
  | none => none
  | some m => some m.target

/-- manager.rs lines 120-124: `clear_global_events` — empties the buffer
when initialized, silently does nothing otherwise (returns unit). -/
def clear_global_events (g : Global) : Global :=
  match g with
  | none => none
  | some m => some { m with inner := [] }

/-- manager.rs lines 128-134: `ExportMetadata`. `timestamp` is abstract. -/
structure ExportMetadata where
  version : String
  timestamp : Nat
  total_events : Nat
  level_counts : List (String × Nat)
  description : Option String
deriving DecidableEq, Repr

/-- manager.rs lines 137-141: `ExportData`. -/
structure ExportData where
  metadata : ExportMetadata
  events : List Event

/-- `BTreeMap` entry bump (`*level_counts.entry(k).or_insert(0) += 1`):
the association list is kept sorted by key, as a `BTreeMap` iterates. -/
def bumpCount : List (String × Nat) → String → List (String × Nat)
  | [], k => [(k, 1)]
  | (k', c) :: rest, k =>
      if k = k' then (k', c + 1) :: rest
      else if k < k' then (k, 1) :: (k', c) :: rest
      else (k', c) :: bumpCount rest k

/-- manager.rs lines 228-231: per-level counts keyed by the `Display`
rendering of each event's stored level string. -/
def levelCounts (events : List Event) : List (String × Nat) :=
  events.foldl (fun m e => bumpCount m e.event_data.level.s) []

/-- manager.rs lines 224-242: `create_export_data`. `version` is the
crate version from `env!`, `now` the export wall-clock time; both are
passed explicitly. -/
def create_export_data (events : List Event) (description : Option String)
    (version : String) (now : Nat) : ExportData :=
  { metadata :=
      { version := version
        timestamp := now
        total_events := events.length
        level_counts := levelCounts events
        description := description }
    events := events }

/-- The serialized form of one `Event`: exactly the fields serde writes.
The derived `Serialize` emits every field of `Event` except `parent`,
which is `#[serde(skip)]` (event.rs line 14). All remaining field types
(strings, integers, options, vectors, maps, nested `SpanInfo` trees)
round-trip losslessly through the serde data model, so the codec is
modelled as the field-by-field identity on this projection. -/
structure EventWire where
  event_data : EventData
  span_stack : List SpanInfo
  current_span : Option SpanInfo
  thread_id : Option String
  thread_name : Option String
  process_id : Option Nat
  correlation_id : Option String
  custom_metadata : List (String × String)

/-- Serialization of one event: drop the skipped `parent` field, keep the
rest. -/
def eventToWire : Event → EventWire
  | .mk _ d ss cs ti tn pid ci cm => ⟨d, ss, cs, ti, tn, pid, ci, cm⟩

/-- Deserialization of one event: the skipped `parent` field is filled
with its `Default` value, `None`. -/
def wireToEvent : EventWire → Event
  | ⟨d, ss, cs, ti, tn, pid, ci, cm⟩ => .mk none d ss cs ti tn pid ci cm

/-- The serialized form of an `ExportData` document: metadata (all fields
serialized) plus the wire form of each event. -/
structure ExportDataWire where
  metadata : ExportMetadata
  events : List EventWire

/-- `serde_json::to_vec(&export_data)` at the serde data-model level. -/
def encodeExport (d : ExportData) : ExportDataWire :=
  { metadata := d.metadata, events := d.events.map eventToWire }

/-- `serde_json::from_slice` of a well-formed snapshot at the serde
data-model level. -/
def decodeExport (w : ExportDataWire) : ExportData :=
  { metadata := w.metadata, events := w.events.map wireToEvent }

/-- The effect of a snapshot round-trip on one event: every serialized
field is kept, the skipped `parent` reference comes back as `None`. -/
def clearParent : Event → Event
  | .mk _ d ss cs ti tn pid ci cm => .mk none d ss cs ti tn pid ci cm

/-- A concrete parent-free event used in concrete evaluations. -/
def baseEvent : Event :=
  Event.new (EventData.new "root" Level.INFO "app" 0)

/-- A concrete event carrying a parent reference. -/
def childEvent : Event :=
  (Event.new (EventData.new "child" Level.WARN "app" 1)).with_parent baseEvent

/-- A concrete event whose stored level string is not one of the five
recognized level names. -/
def unknownLevelEvent : Event :=
  Event.new
    { message := "m"
      level := ⟨"VERBOSE"⟩
      target := "t"
      file := none
      line := none
      module_path := none
      fields := []
      timestamp := 0 }

/-- A concrete manager holding `unknownLevelEvent`. -/
def unknownLevelManager : EventManager :=
  { inner := [unknownLevelEvent], target := EventTarget.new Event, max_events := 5 }

/- ------------------------------------------------------------------ -/
/- Helper lemmas                                                       -/
/- ------------------------------------------------------------------ -/

theorem push_max_events (m : EventManager) (e : Event) :
    (m.push e).max_events = m.max_events := by
  unfold EventManager.push
  split <;> rfl

theorem push_inner (m : EventManager) (e : Event) (h : m.inner.length ≤ m.max_events) :
    (m.push e).inner = (e :: m.inner).take m.max_events := by
  unfold EventManager.push
  split
  case isTrue hgt =>
    have hlen : m.inner.length = m.max_events := by
      simp [List.length_cons] at hgt
      omega
    simp [List.dropLast_eq_take, List.length_cons, hlen]
  case isFalse hle =>
    have hlen : (e :: m.inner).length ≤ m.max_events := by
      simp [List.length_cons] at hle ⊢
      omega
    simp [List.take_of_length_le hlen]

theorem pushAll_max_events : ∀ (es : List Event) (m : EventManager),
    (pushAll m es).max_events = m.max_events := by
  intro es
  induction es with
  | nil => intro m; rfl
  | cons e es ih =>
    intro m
    have : pushAll m (e :: es) = pushAll (m.push e) es := rfl
    rw [this, ih, push_max_events]

theorem take_append_take (xs ys : List α) (n : Nat) :
    (xs ++ ys.take n).take n = (xs ++ ys).take n := by
  rw [List.take_append_eq_append_take, List.take_append_eq_append_take, List.take_take,
    Nat.min_eq_left (Nat.sub_le n xs.length)]

theorem pushAll_inner : ∀ (es : List Event) (m : EventManager),
    m.inner.length ≤ m.max_events →
    (pushAll m es).inner = (es.reverse ++ m.inner).take m.max_events := by
  intro es
  induction es with
  | nil =>
    intro m h
    simp [pushAll, List.take_of_length_le h]
  | cons e es ih =>
    intro m h
    have hstep : pushAll m (e :: es) = pushAll (m.push e) es := rfl
    have hlen : (m.push e).inner.length ≤ (m.push e).max_events := by
      rw [push_inner m e h, push_max_events]
      simp [List.length_take]
    rw [hstep, ih (m.push e) hlen, push_inner m e h, push_max_events,
      take_append_take, List.reverse_cons, List.append_assoc]
    rfl

theorem wire_roundtrip (e : Event) : wireToEvent (eventToWire e) = clearParent e := by
  cases e
  rfl

theorem wire_roundtrip_funext : wireToEvent ∘ eventToWire = clearParent :=
  funext wire_roundtrip

theorem decode_encode (D : ExportData) :
    decodeExport (encodeExport D) =
      { metadata := D.metadata, events := D.events.map clearParent } := by
  simp [decodeExport, encodeExport, List.map_map, wire_roundtrip_funext]

theorem clearParent_eq_self (e : Event) (h : e.parent = none) : clearParent e = e := by
  cases e with
  | mk p d ss cs ti tn pid ci cm =>
    simp [Event.parent] at h
    simp [clearParent, h]

theorem map_clearParent_of_parent_free : ∀ (es : List Event),
    (∀ e ∈ es, e.parent = none) → es.map clearParent = es := by
  intro es
  induction es with
  | nil => intro _; rfl
  | cons a tl ih =>
    intro h
    rw [List.map_cons, clearParent_eq_self a (h a (List.mem_cons_self a tl)),
      ih (fun e he => h e (List.mem_cons_of_mem a he))]

theorem listeners_emit (s : EventTarget T) (v : T) : (s.emit v).listeners = s.listeners :=
  rfl

theorem listeners_emitList : ∀ (vs : List T) (s : EventTarget T),
    (emitList s vs).listeners = s.listeners := by
  intro vs
  induction vs with
  | nil => intro s; rfl
  | cons v vs ih =>
    intro s
    have : emitList s (v :: vs) = emitList (s.emit v) vs := rfl
    rw [this, ih, listeners_emit]

theorem filterMap_deliveries (id : Nat) (v : T) : ∀ l : List Nat,
    l.filterMap (fun i => if i = id then some v else none) =
      List.replicate (l.count id) v := by
  intro l
  induction l with
  | nil => rfl
  | cons a tl ih =>
    by_cases ha : a = id
    · subst ha
      simp [List.filterMap_cons, ih, List.count_cons, List.replicate_succ]
    · simp [List.filterMap_cons, if_neg ha, ih, List.count_cons, Ne.symm ha]

theorem deliveredTo_emit (id : Nat) (s : EventTarget T) (v : T) :
    deliveredTo id (s.emit v) =
      deliveredTo id s ++ List.replicate (s.listeners.count id) v := by
  have hcomp : ((fun p : Nat × T => if p.1 = id then some p.2 else none) ∘ fun i : Nat => (i, v)) =
      (fun i : Nat => if i = id then some v else none) := rfl
  simp [deliveredTo, EventTarget.emit, List.filterMap_append, List.filterMap_map, hcomp,
    filterMap_deliveries]

theorem deliveredTo_emitList_one (id : Nat) : ∀ (vs : List T) (s : EventTarget T),
    s.listeners.count id = 1 →
    deliveredTo id (emitList s vs) = deliveredTo id s ++ vs := by
  intro vs
  induction vs with
  | nil => intro s _; simp [emitList]
  | cons v vs ih =>
    intro s h
    have hstep : emitList s (v :: vs) = emitList (s.emit v) vs := rfl
    rw [hstep, ih (s.emit v) (by rw [listeners_emit]; exact h), deliveredTo_emit, h]
    simp

theorem deliveredTo_emitList_zero (id : Nat) : ∀ (vs : List T) (s : EventTarget T),
    id ∉ s.listeners →
    deliveredTo id (emitList s vs) = deliveredTo id s := by
  intro vs
  induction vs with
  | nil => intro s _; rfl
  | cons v vs ih =>
    intro s h
    have hstep : emitList s (v :: vs) = emitList (s.emit v) vs := rfl
    rw [hstep, ih (s.emit v) (by rw [listeners_emit]; exact h), deliveredTo_emit,
      List.count_eq_zero_of_not_mem h]
    simp

theorem invokesUnderLock_map_invoke (d : Nat) (rest : List ETAction) : ∀ ls : List Nat,
    invokesUnderLock (d + 1) (ls.map ETAction.invoke ++ rest) =
      ls.length + invokesUnderLock (d + 1) rest := by
  intro ls
  induction ls with
  | nil => simp
  | cons a tl ih =>
    simp [invokesUnderLock, ih]
    omega

theorem invokesTotal_map_invoke (rest : List ETAction) : ∀ ls : List Nat,
    invokesTotal (ls.map ETAction.invoke ++ rest) = ls.length + invokesTotal rest := by
  intro ls
  induction ls with
  | nil => simp
  | cons a tl ih =>
    simp [invokesTotal, ih]
    omega

/- ------------------------------------------------------------------ -/
/- Claim theorems                                                      -/
/- ------------------------------------------------------------------ -/

/-- C1: the claim says the global registry's `emit` both prepends the
event to the bounded buffer (length grows by one, event newest) and
publishes it on the `EventTarget`. The code (manager.rs lines 111-114)
takes the read lock and calls `EventTarget::emit` through `Deref`; the
buffer is never pushed. Concretely: after initializing and emitting one
event, the event was published (it is on the target's stream) but the
store still has length 0, contradicting the claimed growth — and
contradicting the repository's own test `test_subscriber_integration`,
which asserts a positive count after emitting through the layer. -/
theorem global_emit_publishes_without_push :
    get_global_event_count ((global_emit (init_global_event_manager none) baseEvent).1) = 0 ∧
    ((global_emit (init_global_event_manager none) baseEvent).1).map
      (fun m => m.target.stream) = some [baseEvent] ∧
    ((global_emit (init_global_event_manager none) baseEvent).1).map
      (fun m => m.inner) = some [] ∧
    (global_emit (init_global_event_manager none) baseEvent).2 = some () :=
  ⟨rfl, rfl, rfl, rfl⟩

/-- C2: for every capacity option and every sequence of pushes into a
fresh `EventManager::new` store, the capacity is the supplied value
(12000 when absent), the buffer holds exactly the last `max_events`
pushed events newest-first (`es.reverse.take`), the final length is
`min N C`, and after every prefix of pushes the length is at most
`max_events`. -/
theorem push_sequence_bounded_newest_first (cap : Option Nat) (es : List Event) :
    (pushAll (EventManager.new cap) es).max_events = cap.getD 12000 ∧
    (pushAll (EventManager.new cap) es).inner = es.reverse.take (cap.getD 12000) ∧
    (pushAll (EventManager.new cap) es).len = min es.length (cap.getD 12000) ∧
    ∀ n : Nat, (pushAll (EventManager.new cap) (es.take n)).len ≤ cap.getD 12000 := by
  have hmax : (pushAll (EventManager.new cap) es).max_events = cap.getD 12000 := by
    rw [pushAll_max_events]
    rfl
  have hinner : ∀ fs : List Event,
      (pushAll (EventManager.new cap) fs).inner = fs.reverse.take (cap.getD 12000) := by
    intro fs
    have h := pushAll_inner fs (EventManager.new cap) (by simp [EventManager.new])
    simpa [EventManager.new] using h
  refine ⟨hmax, hinner es, ?_, ?_⟩
  · rw [EventManager.len, hinner es]
    simp [List.length_take, Nat.min_comm]
  · intro n
    rw [EventManager.len, hinner (es.take n)]
    simp [List.length_take]

/-- C3 counterexample: the snapshot round-trip does not reconstruct the
optional parent reference. `Event.parent` is `#[serde(skip)]`
(event.rs line 14), so decoding the encoding of a collection containing
`childEvent` (whose parent is `baseEvent`) yields an event whose parent
is `None`, hence a collection different from the original. -/
theorem roundtrip_drops_parent_counterexample :
    decodeExport (encodeExport (create_export_data [childEvent] none "0.1.0" 2)) ≠
      create_export_data [childEvent] none "0.1.0" 2 := by
  intro h
  have hev := congrArg ExportData.events h
  rw [decode_encode] at hev
  simp [create_export_data, childEvent, baseEvent, Event.new, Event.with_parent,
    clearParent] at hev

/-- C3 amended: decoding the encoding of a non-empty event collection E
reconstructs every event equal to the original in every serialized field
— all fields except the `parent` reference, which serde skips and which
decoding resets to `None` — the metadata round-trips exactly, and
`metadata.total_events` equals the length of E. When no event of E
carries a parent, the round-trip is the exact identity. -/
theorem roundtrip_preserves_serialized_fields (es : List Event) (d : Option String)
    (v : String) (t : Nat) (hne : es ≠ []) :
    (decodeExport (encodeExport (create_export_data es d v t))).events = es.map clearParent ∧
    (decodeExport (encodeExport (create_export_data es d v t))).metadata =
      (create_export_data es d v t).metadata ∧
    (create_export_data es d v t).metadata.total_events = es.length ∧
    ((∀ e ∈ es, e.parent = none) →
      decodeExport (encodeExport (create_export_data es d v t)) =
        create_export_data es d v t) := by
  refine ⟨?_, ?_, rfl, ?_⟩
  · rw [decode_encode]
    rfl
  · rw [decode_encode]
  · intro hall
    rw [decode_encode]
    have hm : List.map clearParent (create_export_data es d v t).events = es :=
      map_clearParent_of_parent_free es hall
    rw [hm]
    rfl

/-- C3 witness: concrete round-trip of the singleton parent-free
collection `[baseEvent]`. -/
theorem roundtrip_preserves_serialized_fields_witness :
    (decodeExport (encodeExport (create_export_data [baseEvent] none "0.1.0" 3))).events =
      [baseEvent] ∧
    (create_export_data [baseEvent] none "0.1.0" 3).metadata.total_events = 1 := by
  have h := roundtrip_preserves_serialized_fields [baseEvent] none "0.1.0" 3 (by simp)
  refine ⟨?_, h.2.2.1⟩
  have h4 := h.2.2.2 (by
    intro e he
    rw [List.mem_singleton] at he
    subst he
    rfl)
  have := congrArg ExportData.events h4
  simpa [create_export_data] using this

/-- C4: for every event target and fresh subscription id, each of the N
emits following `on` delivers its value to that subscription exactly once,
in emission order (the delivery log for the id grows by exactly the
emitted list), and after `off` no further emit delivers to it. -/
theorem subscribe_emit_unsubscribe_delivery (s : EventTarget T) (id : Nat) (vs ws : List T)
    (hid : id ∉ s.listeners) :
    deliveredTo id (emitList (s.on id) vs) = deliveredTo id s ++ vs ∧
    deliveredTo id (emitList ((emitList (s.on id) vs).off id) ws) =
      deliveredTo id s ++ vs := by
  have hcount : (s.on id).listeners.count id = 1 := by
    simp [EventTarget.on, if_neg hid, List.count_append,
      List.count_eq_zero_of_not_mem hid]
  have h1 := deliveredTo_emitList_one id vs (s.on id) hcount
  have hdel_on : deliveredTo id (s.on id) = deliveredTo id s := rfl
  rw [hdel_on] at h1
  refine ⟨h1, ?_⟩
  have hoffmem : id ∉ ((emitList (s.on id) vs).off id).listeners := by
    simp [EventTarget.off, List.mem_filter]
  rw [deliveredTo_emitList_zero id ws _ hoffmem]
  exact h1

/-- C4 witness: a fresh target over `Nat`, subscription id 0, two emits
then unsubscribe then one more emit. -/
theorem subscribe_emit_unsubscribe_delivery_witness :
    deliveredTo 0 (emitList ((EventTarget.new Nat).on 0) [5, 6]) = [5, 6] ∧
    deliveredTo 0 (emitList ((emitList ((EventTarget.new Nat).on 0) [5, 6]).off 0) [7]) =
      [5, 6] := by
  have h := subscribe_emit_unsubscribe_delivery (EventTarget.new Nat) 0 [5, 6] [7]
    (by simp [EventTarget.new])
  simpa [EventTarget.new, deliveredTo] using h

/-- C5: `search` with no filters supplied returns the whole buffer in
store order, and `search` with only a level filter returns exactly the
same sequence as `get_by_level`. -/
theorem search_no_filters_and_level_equiv (m : EventManager) :
    m.search none none none none = m.inner ∧
    ∀ L : Level, m.search (some L) none none none = m.get_by_level L := by
  constructor
  · simp [EventManager.search, Event.matches_criteria]
  · intro L
    simp [EventManager.search, Event.matches_criteria, EventManager.get_by_level,
      SerializableLevel.eqLevel, EventData.levelValue]

/-- C6 counterexample: `SpanInfo::exit` records `exited_at`
unconditionally but records `duration` only when
`now.duration_since(entered_at)` succeeds. A span entered at tick 10 and
exited at tick 5 (clock went backwards) ends with `exited_at` present and
`duration` absent, so the claimed "duration present iff exited_at
present" is false for a span produced by `new` followed by `exit`. -/
theorem span_exit_backwards_clock_counterexample :
    ((SpanInfo.new 0 "job" "app" Level.INFO 10).exit 5).exited_at = some 5 ∧
    ((SpanInfo.new 0 "job" "app" Level.INFO 10).exit 5).duration = none ∧
    duration_invariant ((SpanInfo.new 0 "job" "app" Level.INFO 10).exit 5) = false := by
  decide

/-- C6 amended: provided the clock does not go backwards across the span
(`entered_at ≤ now` at the `exit` call), the invariant holds: `new`
establishes it, `add_field` and `add_child` preserve it, and `exit` sets
both `exited_at := now` and `duration := now - entered_at`, keeping
duration present iff exited_at is present with the claimed value. -/
theorem span_duration_invariant_ops (i : Nat) (nm tg : String) (lv : Level) (t0 : Nat)
    (s : SpanInfo) (k v : String) (c : SpanInfo) (now : Nat)
    (hs : duration_invariant s = true) (hnow : s.entered_at ≤ now) :
    duration_invariant (SpanInfo.new i nm tg lv t0) = true ∧
    duration_invariant (s.add_field k v) = true ∧
    duration_invariant (s.add_child c) = true ∧
    duration_invariant (s.exit now) = true ∧
    (s.exit now).exited_at = some now ∧
    (s.exit now).duration = some (now - s.entered_at) := by
  cases s with
  | mk si sn st sl sf sln smp sfs sen sex sd sch =>
    refine ⟨rfl, hs, hs, ?_, rfl, ?_⟩
    · have hnow' : sen ≤ now := hnow
      simp [SpanInfo.exit, duration_invariant, SpanInfo.exited_at, SpanInfo.duration,
        SpanInfo.entered_at, if_pos hnow']
    · have hnow' : sen ≤ now := hnow
      simp [SpanInfo.exit, SpanInfo.duration, SpanInfo.entered_at, if_pos hnow']

/-- C6 witness: a concrete span entered at tick 2 and exited at tick 7. -/
theorem span_duration_invariant_ops_witness :
    duration_invariant ((SpanInfo.new 1 "a" "b" Level.INFO 2).exit 7) = true ∧
    ((SpanInfo.new 1 "a" "b" Level.INFO 2).exit 7).exited_at = some 7 ∧
    ((SpanInfo.new 1 "a" "b" Level.INFO 2).exit 7).duration = some 5 := by
  have h := span_duration_invariant_ops 0 "n" "t" Level.WARN 0
    (SpanInfo.new 1 "a" "b" Level.INFO 2) "k" "v" (SpanInfo.new 2 "c" "d" Level.INFO 3) 7
    (by decide) (by decide)
  exact ⟨h.2.2.2.1, h.2.2.2.2.1, h.2.2.2.2.2⟩

/-- C7 counterexample: `get_global_event_count` before initialization
returns the plain number 0 (`unwrap_or(0)`, manager.rs lines 107-109),
which is exactly the successful result on an initialized empty store —
not a distinguishable "unavailable" result as the claim requires of
every listed global operation. -/
theorem count_uninitialized_indistinguishable :
    get_global_event_count (none : Global) =
      get_global_event_count (init_global_event_manager none) ∧
    get_global_event_count (none : Global) = 0 :=
  ⟨rfl, rfl⟩

/-- C7 amended: before initialization no global operation aborts (all are
total), and `get_global_events`, `events` and `emit` do surface the
not-initialized condition as an explicit `None`, distinguishable from any
successful result; but `get_global_event_count` returns the bare count 0
and `clear_global_events` returns unit, both indistinguishable from the
same call on an initialized empty store. -/
theorem global_uninitialized_behaviour (e : Event) (m : EventManager) :
    get_global_events (none : Global) = none ∧
    (get_global_events (some m)).isSome = true ∧
    global_events_target (none : Global) = none ∧
    (global_events_target (some m)).isSome = true ∧
    (global_emit (none : Global) e).2 = none ∧
    (global_emit (some m) e).2 = some () ∧
    get_global_event_count (none : Global) =
      get_global_event_count (some (EventManager.new none)) ∧
    clear_global_events (none : Global) = none :=
  ⟨rfl, rfl, rfl, rfl, rfl, rfl, rfl, rfl⟩

/-- C8 counterexample: in the action trace of `EventTarget::emit` with one
registered listener, the handler invocation occurs while the read lock is
held (the `for_each` runs inside the `if let Ok(listeners) = read()`
guard, events.rs lines 46-48), so the number of under-lock invocations is
not zero, contradicting the claim that handlers run outside the lock. -/
theorem emit_invokes_under_lock_counterexample :
    invokesUnderLock 0 (emitTrace [0]) ≠ 0 := by
  decide

/-- C8 amended: `emit` invokes every registered handler *while holding*
the listener-set read lock — every one of the `ls.length` invocations in
the emit trace happens under the lock, and only the subsequent stream
send runs after the guard is dropped. (The lock is a shared read lock, so
concurrent emits may run in parallel, but a handler that re-entrantly
subscribes or unsubscribes needs the write lock while the read lock is
held, which is not the claimed outside-the-lock snapshot discipline.) -/
theorem emit_invokes_all_under_read_lock (ls : List Nat) :
    invokesUnderLock 0 (emitTrace ls) = ls.length ∧
    invokesTotal (emitTrace ls) = ls.length := by
  constructor
  · have h := invokesUnderLock_map_invoke 0 [ETAction.unlockRead, ETAction.sendStream] ls
    simpa [emitTrace, invokesUnderLock] using h
  · have h := invokesTotal_map_invoke [ETAction.unlockRead, ETAction.sendStream] ls
    simpa [emitTrace, invokesTotal] using h

/-- C9: every level string other than the five recognized names converts
to `Level::INFO` via the fallback arm, and an event stored with such a
level string is returned both by `get_by_level(INFO)` and by `search`
with level filter `INFO`. -/
theorem unknown_level_string_falls_back_to_info (s : String)
    (h1 : s ≠ "ERROR") (h2 : s ≠ "WARN") (h3 : s ≠ "INFO") (h4 : s ≠ "DEBUG")
    (h5 : s ≠ "TRACE") :
    SerializableLevel.toLevel ⟨s⟩ = Level.INFO ∧
    ∀ (m : EventManager) (e : Event), e ∈ m.inner → e.event_data.level = ⟨s⟩ →
      e ∈ m.get_by_level Level.INFO ∧ e ∈ m.search (some Level.INFO) none none none := by
  have hto : SerializableLevel.toLevel ⟨s⟩ = Level.INFO := by
    simp [SerializableLevel.toLevel, if_neg h1, if_neg h2, if_neg h3, if_neg h4, if_neg h5]
  refine ⟨hto, ?_⟩
  intro m e hmem hlvl
  constructor
  · rw [EventManager.get_by_level, List.mem_filter]
    refine ⟨hmem, ?_⟩
    simp [SerializableLevel.eqLevel, hlvl, hto]
  · rw [EventManager.search, List.mem_filter]
    refine ⟨hmem, ?_⟩
    simp [Event.matches_criteria, EventData.levelValue, hlvl, hto]

/-- C9 witness: the concrete level string "VERBOSE" and a manager holding
one event stored at that level. -/
theorem unknown_level_string_falls_back_to_info_witness :
    SerializableLevel.toLevel ⟨"VERBOSE"⟩ = Level.INFO ∧
    unknownLevelEvent ∈ unknownLevelManager.get_by_level Level.INFO := by
  have h := unknown_level_string_falls_back_to_info "VERBOSE"
    (by decide) (by decide) (by decide) (by decide) (by decide)
  refine ⟨h.1, ?_⟩
  exact (h.2 unknownLevelManager unknownLevelEvent (by simp [unknownLevelManager]) rfl).1

/-- C10: a manager obtained from `Default::default()` has
`max_events = 0`, so every push evicts the element it just inserted: after
any sequence of pushes the buffer is empty, `len` is 0 and `is_empty` is
true. -/
theorem default_manager_zero_capacity (es : List Event) :
    EventManager.default.max_events = 0 ∧
    (pushAll EventManager.default es).inner = [] ∧
    (pushAll EventManager.default es).len = 0 ∧
    (pushAll EventManager.default es).is_empty = true := by
  have h := pushAll_inner es EventManager.default (by simp [EventManager.default])
  have hinner : (pushAll EventManager.default es).inner = [] := by
    simpa [EventManager.default] using h
  refine ⟨rfl, hinner, ?_, ?_⟩
  · rw [EventManager.len, hinner]
    rfl
  · rw [EventManager.is_empty, hinner]
    rfl

end Spanner
